import Mathlib

/-!
Verification of the Guto Paylink payment core: phone normalization, carrier
hint, receipt reference truncation, the transaction status poller, and the
payment form state machine.  Each definition is a shallow embedding of the
corresponding TypeScript function; source locations are given in the doc
comments.
-/

namespace Guto

/-! ## Phone normalizer (src/src/components/faq.tsx, normalizeUgMobile) -/

/-- The character class kept by the regex replace step of `normalizeUgMobile`
(`input.replace` removing everything that is neither a digit nor a plus sign).
Note that every plus sign is kept, wherever it occurs. -/
def phoneKeep (c : Char) : Bool := c.isDigit || c == '+'

/-- The capture group of both regexes: a 7 followed by 8 digits, anchored at
the end of the string (so exactly nine digit characters starting with 7). -/
def capTail (l : List Char) : Option (List Char) :=
  if l.length = 9 ∧ l.head? = some '7' ∧ l.all Char.isDigit then some l else none

/-- Embedding of the regex match against the international shape:
an optional leading plus sign, the literal digits 256, then the capture. -/
def matchPlusCap (l : List Char) : Option (List Char) :=
  if (if l.head? = some '+' then l.tail else l).take 3 = ['2', '5', '6'] then
    capTail ((if l.head? = some '+' then l.tail else l).drop 3)
  else none

/-- Embedding of the regex match against the local shape:
a literal 0 then the capture. -/
def matchLocalCap (l : List Char) : Option (List Char) :=
  if l.take 1 = ['0'] then capTail (l.drop 1) else none

/-- faq.tsx lines 400-408: empty input is rejected, the raw string strips
every character the filter does not keep, then the international shape is
tried before the local shape; both return the country code 256 followed by
the captured nine digits. -/
def normalizeUgMobile (input : String) : Option String :=
  if input = "" then none
  else
    match matchPlusCap (input.data.filter phoneKeep) with
    | some cap => some ("256" ++ String.mk cap)
    | none =>
      match matchLocalCap (input.data.filter phoneKeep) with
      | some cap => some ("256" ++ String.mk cap)
      | none => none

/-! ## Carrier hint (src/src/components/faq.tsx, carrierFromMsisdn) -/

inductive Carrier
  | MTN
  | Airtel
  | Unknown
deriving DecidableEq

/-- faq.tsx lines 428-434: a null msisdn maps to Unknown, otherwise the
substring slice(4, 6) is looked up in the fixed tables. -/
def carrierFromMsisdn (msisdn : Option String) : Carrier :=
  match msisdn with
  | none => Carrier.Unknown
  | some m =>
    if ["76", "77", "78"].contains (String.mk ((m.data.drop 4).take 2)) then Carrier.MTN
    else if ["70", "75"].contains (String.mk ((m.data.drop 4).take 2)) then Carrier.Airtel
    else Carrier.Unknown

/-! ## Receipt reference truncation (src/unnamed/part_000, truncateRef) -/

/-- part_000 lines 76-79: a null or empty reference renders empty, a
reference longer than max keeps its first max characters followed by one
ellipsis character, anything else is unchanged. -/
def truncateRef (s : Option String) (max : Nat) : String :=
  match s with
  | none => ""
  | some str =>
    if str = "" then ""
    else if max < str.data.length then String.mk (str.data.take max) ++ "…"
    else str

/-- part_000 lines 97-99 inside buildReceiptSVG: the rendered transaction
reference and provider reference are both produced by truncateRef with the
display bound 15 (the missing provider reference is replaced by ""). -/
def receiptRefFields (tx : String) (providerTx : Option String) : String × String :=
  (truncateRef (some tx) 15, truncateRef (some (providerTx.getD "")) 15)

/-! ## Status poller (src/src/components/faq.tsx, pollUntilPaid, lines 457-513)

The poller is modelled as a deterministic loop over an environment that
supplies, for each poll iteration, the outcome of the status fetch and the
observed state of the cancellation signal.  Model time advances only through
the backoff sleeps, so the elapsed clock equals the sum of the backoff
intervals slept so far; this matches the loop, whose deadline test
`Date.now() - start < timeoutMs` sits at the top of each iteration. -/

/-- The status fields of a parsed response body, in the order probed by the
`??` chain `data.api_status ?? transaction.api_status ?? api_status ?? status`
(string-valued fields; an absent or non-string field is `none`). -/
structure StatusBody where
  data_api_status : Option String := none
  transaction_api_status : Option String := none
  api_status : Option String := none
  status : Option String := none
deriving DecidableEq

/-- The outcome of one GET to the status URL: an OK response with a parsed
body, a non-OK response with its HTTP code, or a thrown network error (which
the loop body catches and treats as an undefined status). -/
inductive FetchOutcome
  | ok (body : StatusBody)
  | httpErr (code : Nat)
  | netThrow
deriving DecidableEq

/-- The first status field present, mirroring the `??` chain. -/
def firstStatusField (b : StatusBody) : Option String :=
  match b.data_api_status with
  | some v => some v
  | none =>
    match b.transaction_api_status with
    | some v => some v
    | none =>
      match b.api_status with
      | some v => some v
      | none => b.status

/-- ASCII lower-casing of one character, the behaviour of
String.prototype.toLowerCase on the ASCII status strings the gateway uses. -/
def jsLowerChar (c : Char) : Char :=
  if c.isUpper then Char.ofNat (c.toNat + 32) else c

/-- ASCII lower-casing of a string. -/
def jsToLower (s : String) : String :=
  String.mk (s.data.map jsLowerChar)

/-- faq.tsx lines 478-493 plus the catch in the loop body: 404 is read as
pending, any other non-OK response or a thrown fetch is an undefined status,
and an OK body yields its first status field lower-cased. -/
def readStatus : FetchOutcome → Option String
  | FetchOutcome.ok b => (firstStatusField b).map jsToLower
  | FetchOutcome.httpErr code => if code = 404 then some "pending" else none
  | FetchOutcome.netThrow => none

/-- The possible results of pollUntilPaid. -/
inductive PollResult
  | paid
  | failed
  | timeout
deriving DecidableEq

/-- faq.tsx line 506: a defined status is terminal-failure when it is truthy
(non-empty) and belongs to the fixed failure list. -/
def isTerminalFailure (s : Option String) : Bool :=
  match s with
  | none => false
  | some t => (t != "") && ["failed", "cancelled", "reversed", "error"].contains t

/-- Attach one delivered tick to the outcome of the rest of the loop and
count the sleep taken before continuing. -/
def consTick (s : Option String) (r : PollResult × List (Option String) × Nat) :
    PollResult × List (Option String) × Nat :=
  (r.1, s :: r.2.1, r.2.2 + 1)

/-- The polling loop, faq.tsx lines 495-512.  Arguments after the
environment and configuration: remaining fuel, the iteration index (used to
query the environment), the elapsed model time, and the current backoff.
The result is the returned value, the list of ticks delivered to onTick in
issuance order, and the number of backoff sleeps taken.  The deadline check,
the cancellation check, the tick, the terminal tests and the backoff update
follow the source ordering exactly. -/
def pollLoop (env : Nat → FetchOutcome) (ab : Nat → Bool) (maxIntervalMs timeoutMs : Nat) :
    Nat → Nat → Nat → Nat → PollResult × List (Option String) × Nat
  | 0, _, _, _ => (PollResult.timeout, [], 0)
  | fuel + 1, i, elapsed, backoff =>
    if elapsed < timeoutMs then
      if ab i then (PollResult.timeout, [], 0)
      else if readStatus (env i) = some "paid" then (PollResult.paid, [readStatus (env i)], 0)
      else if isTerminalFailure (readStatus (env i)) then
        (PollResult.failed, [readStatus (env i)], 0)
      else
        consTick (readStatus (env i))
          (pollLoop env ab maxIntervalMs timeoutMs fuel (i + 1) (elapsed + backoff)
            (min (backoff + 1000) maxIntervalMs))
    else (PollResult.timeout, [], 0)

/-- pollUntilPaid: the loop started at iteration 0, elapsed 0 and the initial
interval as backoff.  The fuel timeoutMs + 1 never runs out when the
intervals are positive, because each iteration past the first adds at least
one millisecond of elapsed time. -/
def pollUntilPaid (env : Nat → FetchOutcome) (ab : Nat → Bool)
    (intervalMs maxIntervalMs timeoutMs : Nat) : PollResult × List (Option String) × Nat :=
  pollLoop env ab maxIntervalMs timeoutMs (timeoutMs + 1) 0 0 intervalMs

/-! ## Payment form state machine (src/src/components/faq.tsx, Form, lines 515-707)

React state is modelled as an explicit record; each submit handler becomes a
transition function.  The network is an explicit environment: the verify
call result for the phone step, and the pay-gateway outcome plus the poll
read sequence for the account step.  Amounts are rationals, the exact model
of the JavaScript numbers that occur here (decimal inputs of small
magnitude, on which comparison is exact). -/

inductive Step
  | amount
  | phone
  | account
deriving DecidableEq

/-- The configuration props of the Form component (faq.tsx lines 515-527),
with their default values. -/
structure FormProps where
  initialAmount : Option ℚ := none
  startOnAmount : Option Bool := none
  minAmount : ℚ := 500
  maxAmount : ℚ := 50000000
  gutokey : Option String := none
  recipientMobile : Option String := none
  recipientName : Option String := none
  country : String := "UG"
  direction : String := "paylink"
deriving DecidableEq

/-- JavaScript truthiness of the optional initialAmount number
(undefined and 0 are falsy). -/
def initialAmountTruthy (p : FormProps) : Bool :=
  match p.initialAmount with
  | some a => decide (a ≠ 0)
  | none => false

/-- faq.tsx line 528: startOnAmount with fallback to the negated truthiness
of initialAmount. -/
def startAtAmount (p : FormProps) : Bool :=
  p.startOnAmount.getD (!initialAmountTruthy p)

/-- faq.tsx lines 545-546: fixed-amount mode requires not starting on the
amount step and a positive numeric initialAmount. -/
def fixedAmountMode (p : FormProps) : Bool :=
  !startAtAmount p &&
    (match p.initialAmount with
     | some a => decide (0 < a)
     | none => false)

/-- The mutable React state of one form session.  txRef is the useRef cell
holding the UUID generated when the session starts (faq.tsx line 532); no
transition writes it. -/
structure FormState where
  step : Step
  txRef : String
  amount : ℚ
  phone : String
  accountName : String
  loading : Bool
  waiting : Bool
  txStatus : String
deriving DecidableEq

/-- The initial state of a session (faq.tsx lines 529-539), given the UUID
drawn for this session. -/
def initState (p : FormProps) (uuid : String) : FormState :=
  { step := if startAtAmount p then Step.amount else Step.phone
    txRef := uuid
    amount := (p.initialAmount.getD 0)
    phone := ""
    accountName := ""
    loading := false
    waiting := false
    txStatus := "pending" }

/-- faq.tsx lines 557-567: fixed-amount mode always advances; otherwise the
step advances unless the amount is falsy, below the floor or above the cap. -/
def submitAmount (p : FormProps) (s : FormState) : FormState :=
  if fixedAmountMode p then { s with step := Step.phone }
  else if s.amount = 0 ∨ s.amount < p.minAmount ∨ p.maxAmount < s.amount then s
  else { s with step := Step.phone }

/-- The environment of the phone step: the result of the verify call
(fetchGutoName), null on any lookup failure. -/
structure PhoneEnv where
  verifyName : Option String
deriving DecidableEq

/-- faq.tsx lines 569-591: guarded by loading/waiting; an invalid phone does
not advance; otherwise the account name is prefilled from the lookup result
(or cleared) and the step advances to account. -/
def submitPhone (env : PhoneEnv) (s : FormState) : FormState :=
  if s.loading || s.waiting then s
  else
    match normalizeUgMobile s.phone with
    | none => s
    | some _ =>
      match env.verifyName with
      | some name => { s with accountName := name, step := Step.account, loading := false }
      | none => { s with accountName := "", step := Step.account, loading := false }

/-- The JSON body of the POST to /api/pay (faq.tsx lines 628-638). -/
structure PayPayload where
  mobile : String
  amount : ℚ
  memo : String
  gutokey : String
  recipient : String
  tx : String
  recipient_name : String
  direction : String
  country : String
deriving DecidableEq

/-- The observable outcome of the pay call: a transport failure or non-OK
response (both reach the catch block), a gateway response whose munopay
status is not success, or an accepted request with its transaction id. -/
inductive PayOutcome
  | transportFail
  | rejected (message : Option String)
  | accepted (transactionId : String)
deriving DecidableEq

/-- The environment of the account step: the pay outcome and, when the
gateway accepts, the sequence of status fetch outcomes seen by the poller. -/
structure AccountEnv where
  pay : PayOutcome
  pollReads : Nat → FetchOutcome

/-- The trim applied to the account name before the emptiness check, the
behaviour of String.prototype.trim: strip leading and trailing whitespace. -/
def jsTrim (s : String) : String :=
  String.mk (((s.data.dropWhile Char.isWhitespace).reverse.dropWhile Char.isWhitespace).reverse)

/-- JavaScript falsiness of the optional gutokey prop (undefined or ""). -/
def gutokeyMissing (p : FormProps) : Bool :=
  match p.gutokey with
  | none => true
  | some g => g == ""

/-- The string a || b || "" used for recipient_name (faq.tsx line 635). -/
def jsOrName (a : String) (b : Option String) : String :=
  if a = "" then b.getD "" else a

/-- Delivery of the poll ticks to onTick (faq.tsx lines 683-685): each tick
updates txStatus only when the status string is truthy; txStatus was set to
pending just before polling started (line 665). -/
def finalTxStatus (ticks : List (Option String)) : String :=
  ticks.foldl
    (fun acc t =>
      match t with
      | some v => if v = "" then acc else v
      | none => acc)
    "pending"

/-- faq.tsx lines 593-707: the account-step submit handler.  Guarded by
loading/waiting; validates the payer phone, the amount floor, the trimmed
account name, the gutokey and the normalized recipient in source order; then
sends the payload carrying the session txRef.  A transport failure or a
gateway rejection lands in the catch block, leaving the state unchanged
except for clearing loading.  An accepted request enters waiting mode and
runs the poller with the default tuning and a signal that is never aborted;
the handler returns the final state, the payload that was sent (if any) and
the poll result (if polling ran). -/
def submitAccount (p : FormProps) (env : AccountEnv) (s : FormState) :
    FormState × Option PayPayload × Option PollResult :=
  if s.loading || s.waiting then (s, none, none)
  else
    match normalizeUgMobile s.phone with
    | none => (s, none, none)
    | some payer =>
      if s.amount = 0 ∨ s.amount < p.minAmount then (s, none, none)
      else if jsTrim s.accountName = "" then (s, none, none)
      else if gutokeyMissing p then (s, none, none)
      else
        match p.recipientMobile.bind normalizeUgMobile with
        | none => (s, none, none)
        | some recipient =>
          let payload : PayPayload :=
            { mobile := payer
              amount := s.amount
              memo := "Deposit for " ++ p.gutokey.getD ""
              gutokey := p.gutokey.getD ""
              recipient := recipient
              tx := s.txRef
              recipient_name := jsOrName s.accountName p.recipientName
              direction := p.direction
              country := p.country }
          match env.pay with
          | PayOutcome.transportFail => ({ s with loading := false }, some payload, none)
          | PayOutcome.rejected _ => ({ s with loading := false }, some payload, none)
          | PayOutcome.accepted _ =>
            let out := pollUntilPaid env.pollReads (fun _ => false) 3000 7000 180000
            ({ s with loading := false, waiting := false, txStatus := finalTxStatus out.2.1 },
              some payload, some out.1)

/-! ## Concrete sample data used by witnesses -/

/-- A fully configured props record for a paylink page. -/
def sampleProps : FormProps :=
  { initialAmount := none
    startOnAmount := none
    minAmount := 500
    maxAmount := 50000000
    gutokey := some "gk"
    recipientMobile := some "0770123456"
    recipientName := some "Marigold"
    country := "UG"
    direction := "paylink" }

/-- A session at the account step with valid inputs. -/
def sampleState : FormState :=
  { step := Step.account
    txRef := "11111111-2222-3333-4444-555555555555"
    amount := 1000
    phone := "0771234567"
    accountName := "Alice"
    loading := false
    waiting := false
    txStatus := "pending" }

/-- The payload submitAccount sends from sampleProps/sampleState. -/
def samplePayload : PayPayload :=
  { mobile := "256771234567"
    amount := 1000
    memo := "Deposit for gk"
    gutokey := "gk"
    recipient := "256770123456"
    tx := "11111111-2222-3333-4444-555555555555"
    recipient_name := "Alice"
    direction := "paylink"
    country := "UG" }

/-- An account environment whose gateway rejects the request. -/
def rejectEnv : AccountEnv :=
  { pay := PayOutcome.rejected (some "insufficient balance")
    pollReads := fun _ => FetchOutcome.netThrow }

/-- A status endpoint that reports pending forever. -/
def pendingEnv : Nat → FetchOutcome :=
  fun _ => FetchOutcome.ok { status := some "pending" }

/-- A status endpoint that reports reversed on every read. -/
def reversedEnv : Nat → FetchOutcome :=
  fun _ => FetchOutcome.ok { status := some "reversed" }

/-- A status endpoint that reports pending twice, then paid. -/
def pendingThenPaidEnv : Nat → FetchOutcome :=
  fun i => if i < 2 then FetchOutcome.ok { status := some "pending" }
    else FetchOutcome.ok { status := some "paid" }

/-- The rational 1001/2 = 500.5, written through the raw constructor so that
it evaluates by kernel reduction. -/
def halfAmount : ℚ := ⟨1001, 2, by decide, by decide⟩

/-! ## Poller lemmas -/

/-- One unfolding of the polling loop at positive fuel. -/
theorem pollLoop_succ (env : Nat → FetchOutcome) (ab : Nat → Bool)
    (maxI tmo fuel i elapsed backoff : Nat) :
    pollLoop env ab maxI tmo (fuel + 1) i elapsed backoff =
      if elapsed < tmo then
        if ab i then (PollResult.timeout, [], 0)
        else if readStatus (env i) = some "paid" then (PollResult.paid, [readStatus (env i)], 0)
        else if isTerminalFailure (readStatus (env i)) then
          (PollResult.failed, [readStatus (env i)], 0)
        else
          consTick (readStatus (env i))
            (pollLoop env ab maxI tmo fuel (i + 1) (elapsed + backoff)
              (min (backoff + 1000) maxI))
      else (PollResult.timeout, [], 0) := rfl

/-- An iteration that reads paid returns paid at once, with that single tick
and no sleep. -/
theorem pollLoop_step_paid {env : Nat → FetchOutcome} {ab : Nat → Bool}
    {maxI tmo fuel i elapsed backoff : Nat}
    (h1 : elapsed < tmo) (h2 : ab i = false)
    (h3 : readStatus (env i) = some "paid") :
    pollLoop env ab maxI tmo (fuel + 1) i elapsed backoff
      = (PollResult.paid, [some "paid"], 0) := by
  rw [pollLoop_succ, if_pos h1, if_neg (by simp [h2]), if_pos h3, h3]

/-- An iteration that reads a failure-class status returns failed at once,
with that single tick and no sleep. -/
theorem pollLoop_step_failed {env : Nat → FetchOutcome} {ab : Nat → Bool}
    {maxI tmo fuel i elapsed backoff : Nat} {st : String}
    (h1 : elapsed < tmo) (h2 : ab i = false)
    (h3 : readStatus (env i) = some st) (h4 : st ≠ "paid")
    (h5 : isTerminalFailure (some st) = true) :
    pollLoop env ab maxI tmo (fuel + 1) i elapsed backoff
      = (PollResult.failed, [some st], 0) := by
  rw [pollLoop_succ, if_pos h1, if_neg (by simp [h2]),
    if_neg (by rw [h3]; intro hx; exact h4 (Option.some.inj hx)),
    if_pos (by rw [h3]; exact h5), h3]

/-- An iteration whose status is neither paid nor failure-class delivers its
tick, sleeps and continues with the increased backoff. -/
theorem pollLoop_step_continue {env : Nat → FetchOutcome} {ab : Nat → Bool}
    {maxI tmo fuel i elapsed backoff : Nat} {s : Option String}
    (h1 : elapsed < tmo) (h2 : ab i = false)
    (h3 : readStatus (env i) = s) (h4 : s ≠ some "paid")
    (h5 : isTerminalFailure s = false) :
    pollLoop env ab maxI tmo (fuel + 1) i elapsed backoff
      = consTick s
          (pollLoop env ab maxI tmo fuel (i + 1) (elapsed + backoff)
            (min (backoff + 1000) maxI)) := by
  rw [pollLoop_succ, if_pos h1, if_neg (by simp [h2]),
    if_neg (by rw [h3]; exact h4),
    if_neg (by rw [h3, h5]; exact Bool.false_ne_true), h3]

/-- Every delivered tick belongs to an iteration at which the cancellation
signal had not yet been observed. -/
theorem pollLoop_tick_not_aborted (env : Nat → FetchOutcome) (ab : Nat → Bool)
    (maxI tmo : Nat) :
    ∀ fuel i elapsed backoff j,
      j < (pollLoop env ab maxI tmo fuel i elapsed backoff).2.1.length →
      ab (i + j) = false := by
  intro fuel
  induction fuel with
  | zero =>
    intro i e b j h
    simp [pollLoop] at h
  | succ n ih =>
    intro i e b j h
    rw [pollLoop_succ] at h
    by_cases h1 : e < tmo
    · rw [if_pos h1] at h
      by_cases h2 : ab i = true
      · rw [if_pos h2] at h
        simp at h
      · rw [if_neg h2] at h
        simp only [Bool.not_eq_true] at h2
        by_cases h3 : readStatus (env i) = some "paid"
        · rw [if_pos h3] at h
          simp only [List.length_singleton, Nat.lt_one_iff] at h
          subst h
          simpa using h2
        · rw [if_neg h3] at h
          by_cases h4 : isTerminalFailure (readStatus (env i)) = true
          · rw [if_pos h4] at h
            simp only [List.length_singleton, Nat.lt_one_iff] at h
            subst h
            simpa using h2
          · rw [if_neg h4] at h
            simp only [consTick, List.length_cons] at h
            cases j with
            | zero => simpa using h2
            | succ jj =>
              have hr := ih (i + 1) (e + b) (min (b + 1000) maxI) jj (by omega)
              have : i + (jj + 1) = i + 1 + jj := by omega
              rw [this]
              exact hr
    · rw [if_neg h1] at h
      simp at h

/-! ## Claim theorems for the status poller -/

/-- C1. A poller run whose first two reads are pending and whose third is
paid (all inside the timeout window) returns paid, delivers exactly the
ticks pending, pending, paid in issuance order, and sleeps exactly twice —
once after each non-terminal read and never after the terminal one. -/
theorem pollUntilPaid_two_pending_then_paid (env : Nat → FetchOutcome)
    (intervalMs maxIntervalMs timeoutMs : Nat)
    (h0 : env 0 = FetchOutcome.ok { status := some "pending" })
    (h1 : env 1 = FetchOutcome.ok { status := some "pending" })
    (h2 : env 2 = FetchOutcome.ok { status := some "paid" })
    (hpos : 0 < intervalMs)
    (hwin : intervalMs + min (intervalMs + 1000) maxIntervalMs < timeoutMs) :
    pollUntilPaid env (fun _ => false) intervalMs maxIntervalMs timeoutMs
      = (PollResult.paid, [some "pending", some "pending", some "paid"], 2) := by
  have hr0 : readStatus (env 0) = some "pending" := by rw [h0]; rfl
  have hr1 : readStatus (env 1) = some "pending" := by rw [h1]; rfl
  have hr2 : readStatus (env 2) = some "paid" := by rw [h2]; rfl
  have hm : 0 ≤ min (intervalMs + 1000) maxIntervalMs := Nat.zero_le _
  obtain ⟨k, hk⟩ : ∃ k, timeoutMs = k + 2 := ⟨timeoutMs - 2, by omega⟩
  subst hk
  unfold pollUntilPaid
  rw [pollLoop_step_continue (by omega) rfl hr0 (by decide) (by decide)]
  simp only [Nat.zero_add]
  rw [pollLoop_step_continue (by omega) rfl hr1 (by decide) (by decide)]
  rw [pollLoop_step_paid (by omega) rfl hr2]
  rfl

/-- C1 witness: the theorem applied to the concrete pending, pending, paid
endpoint with the default tuning. -/
theorem pollUntilPaid_two_pending_then_paid_witness :
    (pendingThenPaidEnv 0 = FetchOutcome.ok { status := some "pending" }
      ∧ pendingThenPaidEnv 2 = FetchOutcome.ok { status := some "paid" }
      ∧ 0 < 3000 ∧ 3000 + min (3000 + 1000) 7000 < 180000)
    ∧ pollUntilPaid pendingThenPaidEnv (fun _ => false) 3000 7000 180000
        = (PollResult.paid, [some "pending", some "pending", some "paid"], 2) :=
  ⟨⟨rfl, rfl, by decide, by decide⟩,
    pollUntilPaid_two_pending_then_paid pendingThenPaidEnv 3000 7000 180000
      rfl rfl rfl (by decide) (by decide)⟩

/-- C3. With a monotone cancellation signal that has fired by iteration k,
the poller stops within k iterations and every delivered tick belongs to an
iteration at which the signal had not yet been observed: no tick is ever
delivered after cancellation is observed. -/
theorem pollUntilPaid_no_tick_after_cancellation (env : Nat → FetchOutcome) (ab : Nat → Bool)
    (intervalMs maxIntervalMs timeoutMs k : Nat)
    (hk : ab k = true) :
    (pollUntilPaid env ab intervalMs maxIntervalMs timeoutMs).2.1.length ≤ k
    ∧ ∀ j, j < (pollUntilPaid env ab intervalMs maxIntervalMs timeoutMs).2.1.length →
        ab j = false := by
  have key : ∀ j, j < (pollUntilPaid env ab intervalMs maxIntervalMs timeoutMs).2.1.length →
      ab j = false := by
    intro j hj
    have := pollLoop_tick_not_aborted env ab maxIntervalMs timeoutMs
      (timeoutMs + 1) 0 0 intervalMs j hj
    simpa using this
  refine ⟨?_, key⟩
  by_contra hlt
  push_neg at hlt
  have := key k hlt
  rw [hk] at this
  cases this

/-- C3 witness: a signal already cancelled at the start delivers no tick. -/
theorem pollUntilPaid_no_tick_after_cancellation_witness :
    ((fun _ : Nat => true) 0 = true)
    ∧ (pollUntilPaid pendingEnv (fun _ => true) 3000 7000 180000).2.1.length ≤ 0 :=
  ⟨rfl,
    (pollUntilPaid_no_tick_after_cancellation pendingEnv (fun _ => true) 3000 7000 180000 0
      rfl).1⟩

/-- C4. Whenever an iteration inside the deadline, with the signal not yet
observed, reads a status in the failure class (failed, cancelled, reversed
or error), the poller returns failed on that same iteration: the tick
reporting that status is the only remaining tick, and no further sleep and
no further status request occur. -/
theorem pollLoop_terminal_failure_immediate (env : Nat → FetchOutcome) (ab : Nat → Bool)
    (maxIntervalMs timeoutMs fuel i elapsed backoff : Nat) (st : String)
    (hdl : elapsed < timeoutMs) (hab : ab i = false)
    (hread : readStatus (env i) = some st)
    (hfail : st ∈ ["failed", "cancelled", "reversed", "error"]) :
    pollLoop env ab maxIntervalMs timeoutMs (fuel + 1) i elapsed backoff
      = (PollResult.failed, [some st], 0) := by
  simp only [List.mem_cons, List.not_mem_nil, or_false] at hfail
  rcases hfail with rfl | rfl | rfl | rfl
  all_goals exact pollLoop_step_failed hdl hab hread (by decide) (by decide)

/-- C4 witness: a first read of reversed makes the whole run fail at once
with the single tick reversed and zero sleeps. -/
theorem pollLoop_terminal_failure_immediate_witness :
    ((0 : Nat) < 180000 ∧ readStatus (reversedEnv 0) = some "reversed"
      ∧ "reversed" ∈ ["failed", "cancelled", "reversed", "error"])
    ∧ pollLoop reversedEnv (fun _ => false) 7000 180000 (180000 + 1) 0 0 3000
        = (PollResult.failed, [some "reversed"], 0) :=
  ⟨⟨by decide, rfl, by decide⟩,
    pollLoop_terminal_failure_immediate reversedEnv (fun _ => false) 7000 180000 180000 0 0 3000
      "reversed" (by decide) rfl rfl (by decide)⟩

/-- C10. Cancellation is reported as the value timeout: a signal observed
cancelled before the run starts makes pollUntilPaid return timeout with no
ticks, a signal observed cancelled at any loop state makes the remaining
run return timeout, and the result type carries no distinct cancelled
value — only paid, failed and timeout exist, so a caller cannot tell
cancellation apart from deadline expiry. -/
theorem pollLoop_cancellation_reports_timeout :
    (∀ (env : Nat → FetchOutcome) (ab : Nat → Bool) (intervalMs maxIntervalMs timeoutMs : Nat),
        ab 0 = true →
        pollUntilPaid env ab intervalMs maxIntervalMs timeoutMs = (PollResult.timeout, [], 0))
    ∧ (∀ (env : Nat → FetchOutcome) (ab : Nat → Bool)
          (maxIntervalMs timeoutMs fuel i elapsed backoff : Nat),
        ab i = true →
        (pollLoop env ab maxIntervalMs timeoutMs fuel i elapsed backoff).1 = PollResult.timeout)
    ∧ (∀ r : PollResult, r = PollResult.paid ∨ r = PollResult.failed ∨ r = PollResult.timeout) := by
  refine ⟨?_, ?_, ?_⟩
  · intro env ab intervalMs maxIntervalMs timeoutMs h
    unfold pollUntilPaid
    rw [pollLoop_succ]
    by_cases h1 : (0 : Nat) < timeoutMs
    · rw [if_pos h1, if_pos h]
    · rw [if_neg h1]
  · intro env ab maxIntervalMs timeoutMs fuel i elapsed backoff h
    cases fuel with
    | zero => simp [pollLoop]
    | succ n =>
      rw [pollLoop_succ]
      by_cases h1 : elapsed < timeoutMs
      · rw [if_pos h1, if_pos h]
      · rw [if_neg h1]
  · intro r
    cases r
    · exact Or.inl rfl
    · exact Or.inr (Or.inl rfl)
    · exact Or.inr (Or.inr rfl)

/-- C10 witness: a signal cancelled from the start yields exactly the
timeout result on a pending endpoint. -/
theorem pollLoop_cancellation_reports_timeout_witness :
    ((fun _ : Nat => true) 0 = true)
    ∧ pollUntilPaid pendingEnv (fun _ => true) 3000 7000 180000
        = (PollResult.timeout, [], 0) :=
  ⟨rfl, pollLoop_cancellation_reports_timeout.1 pendingEnv (fun _ => true) 3000 7000 180000 rfl⟩

/-! ## State machine lemmas -/

/-- The account-step handler never changes the step or the session
reference, whatever the gateway and the poller do. -/
theorem submitAccount_preserves (p : FormProps) (env : AccountEnv) (s : FormState) :
    (submitAccount p env s).1.step = s.step ∧ (submitAccount p env s).1.txRef = s.txRef := by
  simp only [submitAccount]
  repeat' split
  all_goals exact ⟨rfl, rfl⟩

/-- Any payload the account-step handler sends carries the session
reference as its tx field. -/
theorem submitAccount_payload_tx (p : FormProps) (env : AccountEnv) (s : FormState)
    (pl : PayPayload) (h : (submitAccount p env s).2.1 = some pl) : pl.tx = s.txRef := by
  simp only [submitAccount] at h
  repeat' split at h
  all_goals first
    | (exact Option.noConfusion h)
    | (rw [← Option.some.inj h])

/-- The amount-step handler never changes the session reference. -/
theorem submitAmount_txRef (p : FormProps) (s : FormState) :
    (submitAmount p s).txRef = s.txRef := by
  simp only [submitAmount]
  repeat' split
  all_goals rfl

/-- The phone-step handler never changes the session reference. -/
theorem submitPhone_txRef (pe : PhoneEnv) (s : FormState) :
    (submitPhone pe s).txRef = s.txRef := by
  simp only [submitPhone]
  repeat' split
  all_goals rfl

/-! ## Claim theorems for the state machine -/

/-- C2. The transaction reference is per-session: every payload the account
step sends carries the session reference, no transition of the machine
rewrites the reference, a rejected or transport-failed submission leaves the
machine at the same step with the reference unchanged, and a resubmission
after such a failure sends the identical reference. -/
theorem submitAccount_txRef_stable (p : FormProps) (env env2 : AccountEnv) (s : FormState) :
    (∀ pl, (submitAccount p env s).2.1 = some pl → pl.tx = s.txRef)
    ∧ ((submitAccount p env s).1.txRef = s.txRef
        ∧ (submitAmount p s).txRef = s.txRef
        ∧ ∀ pe : PhoneEnv, (submitPhone pe s).txRef = s.txRef)
    ∧ ((env.pay = PayOutcome.transportFail ∨ ∃ m, env.pay = PayOutcome.rejected m) →
        (submitAccount p env s).1.step = s.step ∧ (submitAccount p env s).1.txRef = s.txRef)
    ∧ (∀ pl pl2, (submitAccount p env s).2.1 = some pl →
        (submitAccount p env2 (submitAccount p env s).1).2.1 = some pl2 → pl2.tx = pl.tx) := by
  refine ⟨fun pl h => submitAccount_payload_tx p env s pl h,
    ⟨(submitAccount_preserves p env s).2, submitAmount_txRef p s,
      fun pe => submitPhone_txRef pe s⟩,
    fun _ => submitAccount_preserves p env s,
    fun pl pl2 h h2 => ?_⟩
  have e1 := submitAccount_payload_tx p env s pl h
  have e2 := submitAccount_payload_tx p env2 (submitAccount p env s).1 pl2 h2
  rw [e2, (submitAccount_preserves p env s).2, e1]

/-- C2 witness: a concrete session whose gateway rejects the request sends
the sample payload carrying the session reference, stays at the account
step, and sends the identical payload again on resubmission. -/
theorem submitAccount_txRef_stable_witness :
    ((submitAccount sampleProps rejectEnv sampleState).2.1 = some samplePayload
      ∧ (submitAccount sampleProps rejectEnv
          (submitAccount sampleProps rejectEnv sampleState).1).2.1 = some samplePayload)
    ∧ samplePayload.tx = sampleState.txRef
    ∧ ((submitAccount sampleProps rejectEnv sampleState).1.step = sampleState.step
        ∧ (submitAccount sampleProps rejectEnv sampleState).1.txRef = sampleState.txRef) :=
  ⟨⟨by decide, by decide⟩,
    (submitAccount_txRef_stable sampleProps rejectEnv rejectEnv sampleState).1
      samplePayload (by decide),
    (submitAccount_txRef_stable sampleProps rejectEnv rejectEnv sampleState).2.2.1
      (Or.inr ⟨some "insufficient balance", rfl⟩)⟩

/-- C5 counterexample: the non-integer amount 500.5 advances the amount step
and is accepted for submission — the payload sent to the gateway carries
amount 500.5 — refuting the claim that only positive integers are ever
accepted. -/
theorem submitAmount_noninteger_counterexample :
    (submitAmount sampleProps
        { sampleState with step := Step.amount, amount := halfAmount }).step = Step.phone
    ∧ (submitAccount sampleProps rejectEnv { sampleState with amount := halfAmount }).2.1
        = some { samplePayload with amount := halfAmount }
    ∧ halfAmount = (1001 : ℚ) / 2
    ∧ ∀ n : ℤ, (n : ℚ) ≠ halfAmount := by
  refine ⟨by decide, by decide, ?_, ?_⟩
  · unfold halfAmount
    rw [Rat.mk'_eq_divInt, Rat.divInt_eq_div]
    norm_num
  · intro n h
    have hd := congrArg Rat.den h
    simp [halfAmount] at hd

/-- C5 amended. In non-fixed-amount mode, with a positive configured floor,
the amount step advances exactly when minAmount ≤ amount ≤ maxAmount; the
code imposes no integrality requirement, so 0 and negative amounts never
advance, the floor itself advances, maxAmount + 1 never advances, and
non-integer amounts inside the bounds are accepted. -/
theorem submitAmount_advances_iff_in_bounds (p : FormProps) (s : FormState)
    (hfix : fixedAmountMode p = false) (hstep : s.step = Step.amount)
    (hmin : 0 < p.minAmount) :
    (submitAmount p s).step = Step.phone ↔
      (p.minAmount ≤ s.amount ∧ s.amount ≤ p.maxAmount) := by
  unfold submitAmount
  rw [if_neg (by simp [hfix])]
  by_cases hc : s.amount = 0 ∨ s.amount < p.minAmount ∨ p.maxAmount < s.amount
  · rw [if_pos hc, hstep]
    refine iff_of_false (by decide) ?_
    rintro ⟨hge, hle⟩
    rcases hc with h0 | hlt | hgt <;> linarith
  · rw [if_neg hc]
    push_neg at hc
    obtain ⟨h0, hge, hle⟩ := hc
    exact iff_of_true rfl ⟨hge, hle⟩

/-- C5 amended witness: at the floor 500 the step advances. -/
theorem submitAmount_advances_iff_in_bounds_witness :
    (fixedAmountMode sampleProps = false
      ∧ ({ sampleState with step := Step.amount, amount := 500 } : FormState).step = Step.amount
      ∧ (0 : ℚ) < sampleProps.minAmount)
    ∧ (submitAmount sampleProps
        { sampleState with step := Step.amount, amount := 500 }).step = Step.phone :=
  ⟨⟨by decide, rfl, by decide⟩,
    (submitAmount_advances_iff_in_bounds sampleProps
        { sampleState with step := Step.amount, amount := 500 }
        (by decide) rfl (by decide)).mpr (by decide)⟩

/-! ## Normalizer lemmas -/

/-- A list of digit characters passes the keep filter unchanged. -/
theorem filter_phoneKeep_of_digits {l : List Char} (h : l.all Char.isDigit = true) :
    l.filter phoneKeep = l := by
  apply List.filter_eq_self.mpr
  intro a ha
  have hd := List.all_eq_true.mp h a ha
  simp [phoneKeep, hd]

/-- The keep filter is idempotent. -/
theorem filter_phoneKeep_idem (l : List Char) :
    (l.filter phoneKeep).filter phoneKeep = l.filter phoneKeep := by
  apply List.filter_eq_self.mpr
  intro a ha
  exact List.of_mem_filter ha

/-- A list of digit characters cannot start with a plus sign. -/
theorem head_ne_plus_of_digits {l : List Char} (h : l.all Char.isDigit = true) :
    l.head? ≠ some '+' := by
  cases l with
  | nil => simp
  | cons c t =>
    intro hc
    simp only [List.head?_cons, Option.some.injEq] at hc
    subst hc
    simp only [List.all_cons, Bool.and_eq_true] at h
    exact absurd h.1 (by decide)

/-- The capture fails on a list that is not nine characters long. -/
theorem capTail_none_of_length {l : List Char} (h : l.length ≠ 9) : capTail l = none := by
  unfold capTail
  rw [if_neg]
  rintro ⟨h1, -, -⟩
  exact h h1

/-- The capture fails on a list that does not start with 7. -/
theorem capTail_none_of_head {l : List Char} (h : l.head? ≠ some '7') : capTail l = none := by
  unfold capTail
  rw [if_neg]
  rintro ⟨-, h2, -⟩
  exact h h2

/-- The capture fails on a list containing a plus sign. -/
theorem capTail_none_of_plus {l : List Char} (h : '+' ∈ l) : capTail l = none := by
  unfold capTail
  rw [if_neg]
  rintro ⟨-, -, h3⟩
  exact absurd (List.all_eq_true.mp h3 '+' h) (by decide)

/-- On digit-only input the optional leading plus sign of the international
shape is vacuous. -/
theorem matchPlusCap_of_digits {l : List Char} (h : l.all Char.isDigit = true) :
    matchPlusCap l = if l.take 3 = ['2', '5', '6'] then capTail (l.drop 3) else none := by
  unfold matchPlusCap
  rw [if_neg (head_ne_plus_of_digits h)]

/-- The head of a drop is the element at that index. -/
theorem head_drop_eq {α : Type} (n : Nat) : ∀ l : List α, (l.drop n).head? = l[n]? := by
  induction n with
  | zero => intro l; cases l <;> simp
  | succ n ih =>
    intro l
    cases l with
    | nil => rfl
    | cons a t =>
      simp only [List.drop_succ_cons, List.getElem?_cons_succ]
      exact ih t

/-- On nonempty input the normalizer reduces, for digit-only strings, to the
two matchers applied to the raw character list. -/
theorem normalize_digits_core {s : String} (hd : s.data.all Char.isDigit = true)
    (hs : s ≠ "") :
    normalizeUgMobile s =
      match matchPlusCap s.data with
      | some cap => some ("256" ++ String.mk cap)
      | none =>
        match matchLocalCap s.data with
        | some cap => some ("256" ++ String.mk cap)
        | none => none := by
  unfold normalizeUgMobile
  rw [if_neg hs, filter_phoneKeep_of_digits hd]

/-! ## Claim theorems for the normalizer and receipt helpers -/

/-- C6 counterexample: an input containing a letter is not rejected — the
letter is stripped and the remaining digits normalize successfully —
refuting the claim that inputs containing letters yield null. -/
theorem normalizeUgMobile_letters_counterexample :
    normalizeUgMobile "0771234567x" = some "256771234567"
    ∧ normalizeUgMobile "0771234567x" ≠ none :=
  ⟨by decide, by decide⟩

/-- C6 amended. Every local-form input 0, 7 and eight further digits
normalizes to the country code followed by the nine-digit subscriber
number; a digit-only input of any other length yields null, as does a
digit-only input of the right length whose subscriber number does not start
with 7; letters are stripped before matching, so an input containing
letters normalizes according to its remaining digits. -/
theorem normalizeUgMobile_shapes :
    (∀ d : String, d.data.length = 8 → d.data.all Char.isDigit = true →
        normalizeUgMobile ("07" ++ d) = some ("2567" ++ d))
    ∧ (∀ s : String, s.data.all Char.isDigit = true →
        s.data.length ≠ 10 → s.data.length ≠ 12 → normalizeUgMobile s = none)
    ∧ (∀ s : String, s.data.all Char.isDigit = true → s.data.length = 10 →
        s.data[1]? ≠ some '7' → normalizeUgMobile s = none)
    ∧ (∀ s : String, s.data.all Char.isDigit = true → s.data.length = 12 →
        s.data[3]? ≠ some '7' → normalizeUgMobile s = none) := by
  refine ⟨?_, ?_, ?_, ?_⟩
  · intro d hlen hdig
    have hdata : ("07" ++ d).data = '0' :: '7' :: d.data := rfl
    have hs : ("07" ++ d) ≠ "" := by
      intro he
      have h2 := congrArg String.data he
      rw [hdata] at h2
      cases h2
    have hall : ("07" ++ d).data.all Char.isDigit = true := by
      rw [hdata]
      simp [List.all_cons, hdig]
    rw [normalize_digits_core hall hs, hdata]
    obtain ⟨e, rest, hde⟩ : ∃ e rest, d.data = e :: rest := by
      cases hda : d.data with
      | nil => rw [hda] at hlen; simp at hlen
      | cons e rest => exact ⟨e, rest, rfl⟩
    have hall2 : ('0' :: '7' :: d.data).all Char.isDigit = true := by
      rw [← hdata]
      exact hall
    have hp : matchPlusCap ('0' :: '7' :: d.data) = none := by
      rw [matchPlusCap_of_digits hall2, hde]
      have hne : ¬ List.take 3 ('0' :: '7' :: e :: rest) = ['2', '5', '6'] := by
        intro hcontra
        have ht : List.take 3 ('0' :: '7' :: e :: rest) = '0' :: '7' :: [e] := rfl
        rw [ht] at hcontra
        injection hcontra with h1
        exact absurd h1 (by decide)
      rw [if_neg hne]
    rw [hp]
    have hloc : matchLocalCap ('0' :: '7' :: d.data) = some ('7' :: d.data) := by
      unfold matchLocalCap
      rw [if_pos (show List.take 1 ('0' :: '7' :: d.data) = ['0'] from rfl)]
      show capTail ('7' :: d.data) = some ('7' :: d.data)
      unfold capTail
      rw [if_pos]
      refine ⟨?_, rfl, ?_⟩
      · rw [List.length_cons, hlen]
      · simp [List.all_cons, hdig]
    rw [hloc]
    have : ("256" ++ String.mk ('7' :: d.data)).data = ("2567" ++ d).data := rfl
    exact congrArg some (String.ext this)
  · intro s hd h10 h12
    by_cases hs : s = ""
    · subst hs; rfl
    · rw [normalize_digits_core hd hs]
      have hp : matchPlusCap s.data = none := by
        rw [matchPlusCap_of_digits hd]
        by_cases ht : s.data.take 3 = ['2', '5', '6']
        · rw [if_pos ht]
          apply capTail_none_of_length
          rw [List.length_drop]
          omega
        · rw [if_neg ht]
      have hl : matchLocalCap s.data = none := by
        unfold matchLocalCap
        by_cases ht : s.data.take 1 = ['0']
        · rw [if_pos ht]
          apply capTail_none_of_length
          rw [List.length_drop]
          omega
        · rw [if_neg ht]
      rw [hp, hl]
  · intro s hd h10 h7
    have hs : s ≠ "" := by
      intro he
      subst he
      simp at h10
    rw [normalize_digits_core hd hs]
    have hp : matchPlusCap s.data = none := by
      rw [matchPlusCap_of_digits hd]
      by_cases ht : s.data.take 3 = ['2', '5', '6']
      · rw [if_pos ht]
        apply capTail_none_of_length
        rw [List.length_drop]
        omega
      · rw [if_neg ht]
    have hl : matchLocalCap s.data = none := by
      unfold matchLocalCap
      by_cases ht : s.data.take 1 = ['0']
      · rw [if_pos ht]
        apply capTail_none_of_head
        rw [head_drop_eq]
        exact h7
      · rw [if_neg ht]
    rw [hp, hl]
  · intro s hd h12 h7
    have hs : s ≠ "" := by
      intro he
      subst he
      simp at h12
    rw [normalize_digits_core hd hs]
    have hp : matchPlusCap s.data = none := by
      rw [matchPlusCap_of_digits hd]
      by_cases ht : s.data.take 3 = ['2', '5', '6']
      · rw [if_pos ht]
        apply capTail_none_of_head
        rw [head_drop_eq]
        exact h7
      · rw [if_neg ht]
    have hl : matchLocalCap s.data = none := by
      unfold matchLocalCap
      by_cases ht : s.data.take 1 = ['0']
      · rw [if_pos ht]
        apply capTail_none_of_length
        rw [List.length_drop]
        omega
      · rw [if_neg ht]
    rw [hp, hl]

/-- C6 amended witness: the local form 0712345678 normalizes to
256712345678, and the nine-digit input 071234567 (wrong length) yields
null. -/
theorem normalizeUgMobile_shapes_witness :
    (("12345678" : String).data.length = 8
      ∧ ("12345678" : String).data.all Char.isDigit = true)
    ∧ normalizeUgMobile ("07" ++ "12345678") = some ("2567" ++ "12345678")
    ∧ normalizeUgMobile "071234567" = none :=
  ⟨⟨by decide, by decide⟩,
    normalizeUgMobile_shapes.1 "12345678" (by decide) (by decide),
    normalizeUgMobile_shapes.2.1 "071234567" (by decide) (by decide) (by decide)⟩

/-- C7 counterexample: a plus sign in a non-leading position changes the
result — the same digit sequence normalizes without it — refuting the claim
that only a leading plus sign survives the strip and that non-leading plus
signs leave the result unaffected. -/
theorem normalizeUgMobile_plus_position_counterexample :
    normalizeUgMobile "07712+34567" = none
    ∧ normalizeUgMobile "0771234567" = some "256771234567" :=
  ⟨by decide, by decide⟩

/-- C7 amended. Normalization first strips every character that is neither
a digit nor a plus sign — keeping every plus sign, wherever it occurs — and
then matches: the result equals the result on the filtered string, so
separators and letters anywhere never affect the outcome; a retained plus
sign in any non-leading position of the filtered string makes the match
fail. -/
theorem normalizeUgMobile_filter_invariance :
    (∀ input : String,
        normalizeUgMobile input
          = normalizeUgMobile (String.mk (input.data.filter phoneKeep)))
    ∧ (∀ s : String, '+' ∈ (s.data.filter phoneKeep).drop 1 →
        normalizeUgMobile s = none) := by
  constructor
  · intro input
    by_cases hi : input = ""
    · subst hi; rfl
    · by_cases hf : input.data.filter phoneKeep = []
      · unfold normalizeUgMobile
        rw [if_neg hi, hf]
        rfl
      · unfold normalizeUgMobile
        rw [if_neg hi, if_neg (fun he => hf (by simpa using congrArg String.data he))]
        rw [show (String.mk (input.data.filter phoneKeep)).data
            = input.data.filter phoneKeep from rfl]
        rw [filter_phoneKeep_idem]
  · intro s hplus
    have hne : s ≠ "" := by
      intro he
      subst he
      simp at hplus
    unfold normalizeUgMobile
    rw [if_neg hne]
    have hmem : '+' ∈ s.data.filter phoneKeep := List.mem_of_mem_drop hplus
    have htail : '+' ∈ (s.data.filter phoneKeep).tail := by
      rw [← List.drop_one]
      exact hplus
    have hp : matchPlusCap (s.data.filter phoneKeep) = none := by
      unfold matchPlusCap
      by_cases hh : (s.data.filter phoneKeep).head? = some '+'
      · rw [if_pos hh]
        by_cases ht : (s.data.filter phoneKeep).tail.take 3 = ['2', '5', '6']
        · rw [if_pos ht]
          have hsplit := List.take_append_drop 3 (s.data.filter phoneKeep).tail
          rw [ht] at hsplit
          have hin : '+' ∈ ['2', '5', '6'] ++ (s.data.filter phoneKeep).tail.drop 3 := by
            rw [hsplit]; exact htail
          rcases List.mem_append.mp hin with hx | hx
          · exact absurd hx (by decide)
          · exact capTail_none_of_plus hx
        · rw [if_neg ht]
      · rw [if_neg hh]
        by_cases ht : (s.data.filter phoneKeep).take 3 = ['2', '5', '6']
        · rw [if_pos ht]
          have hsplit := List.take_append_drop 3 (s.data.filter phoneKeep)
          rw [ht] at hsplit
          have hin : '+' ∈ ['2', '5', '6'] ++ (s.data.filter phoneKeep).drop 3 := by
            rw [hsplit]; exact hmem
          rcases List.mem_append.mp hin with hx | hx
          · exact absurd hx (by decide)
          · exact capTail_none_of_plus hx
        · rw [if_neg ht]
    have hl : matchLocalCap (s.data.filter phoneKeep) = none := by
      unfold matchLocalCap
      by_cases ht : (s.data.filter phoneKeep).take 1 = ['0']
      · rw [if_pos ht]
        exact capTail_none_of_plus hplus
      · rw [if_neg ht]
    rw [hp, hl]

/-- C7 amended witness: the filtered form of 07712+34567 keeps the interior
plus sign, which makes normalization fail. -/
theorem normalizeUgMobile_filter_invariance_witness :
    ('+' ∈ (("07712+34567" : String).data.filter phoneKeep).drop 1)
    ∧ normalizeUgMobile "07712+34567" = none :=
  ⟨by decide, normalizeUgMobile_filter_invariance.2 "07712+34567" (by decide)⟩

/-- C8. The carrier hint misses the documented prefix table on the
canonical msisdn format actually produced by the normalizer: 0771234567
normalizes to 256771234567, whose two digits after the country code are 77
(an MTN prefix), yet the code inspects slice(4,6) — written for the
plus-prefixed format its own comment expects, on which it would answer MTN —
and returns Unknown. -/
theorem carrierFromMsisdn_offbyone_eval :
    normalizeUgMobile "0771234567" = some "256771234567"
    ∧ carrierFromMsisdn (normalizeUgMobile "0771234567") = Carrier.Unknown
    ∧ String.mk ((("256771234567" : String).data.drop 3).take 2) = "77"
    ∧ carrierFromMsisdn (some "+256771234567") = Carrier.MTN :=
  ⟨by decide, by decide, by decide, by decide⟩

/-- C9. A reference longer than 15 characters renders as exactly its first
15 characters followed by the single ellipsis character, a reference of 15
or fewer characters renders unchanged, and the receipt derives both the
transaction reference and the provider reference through this same rule
with bound 15. -/
theorem truncateRef_receipt_rendering (str tx : String) (ptx : Option String) :
    (15 < str.data.length →
      (truncateRef (some str) 15).data = str.data.take 15 ++ ['…'])
    ∧ (str.data.length ≤ 15 → truncateRef (some str) 15 = str)
    ∧ receiptRefFields tx ptx
        = (truncateRef (some tx) 15, truncateRef (some (ptx.getD "")) 15) := by
  refine ⟨?_, ?_, rfl⟩
  · intro h
    have hne : ¬ str = "" := by
      intro he
      rw [he] at h
      exact absurd h (by decide)
    simp only [truncateRef]
    rw [if_neg hne, if_pos h]
    rfl
  · intro h
    simp only [truncateRef]
    by_cases hs : str = ""
    · rw [if_pos hs, hs]
    · rw [if_neg hs, if_neg (by omega)]

/-- C9 witness: a 20-character reference keeps its first 15 characters and
gains one ellipsis character. -/
theorem truncateRef_receipt_rendering_witness :
    (15 < ("aaaaaaaaaaaaaaaaaaaa" : String).data.length)
    ∧ (truncateRef (some "aaaaaaaaaaaaaaaaaaaa") 15).data
        = ("aaaaaaaaaaaaaaaaaaaa" : String).data.take 15 ++ ['…'] :=
  ⟨by decide,
    (truncateRef_receipt_rendering "aaaaaaaaaaaaaaaaaaaa" "t" none).1 (by decide)⟩

end Guto
